import Mathlib

/-!
Shallow embedding of the telegram-comms bot (src/main.py) for checking its
specification. Python dicts are modelled as association lists (insertion
order preserved, unique keys), Python strings of the chunker as List Char,
and the asynchronous handlers as pure functions from the relevant state.
-/

/-! ## Python dict model (get / contains / del / assignment) -/

/-- Model of Python dict.get: value of the first (unique) matching key. -/
def dictGet {α β : Type} [DecidableEq α] : List (α × β) → α → Option β
  | [], _ => none
  | (k, v) :: rest, key => if k = key then some v else dictGet rest key

/-- Model of the Python membership test (key in dict). -/
def dictHas {α β : Type} [DecidableEq α] (m : List (α × β)) (key : α) : Bool :=
  (dictGet m key).isSome

/-- Model of Python assignment d[key] = v: replace in place, else append. -/
def dictSet {α β : Type} [DecidableEq α] : List (α × β) → α → β → List (α × β)
  | [], key, v => [(key, v)]
  | (k, w) :: rest, key, v =>
    if k = key then (key, v) :: rest else (k, w) :: dictSet rest key v

/-- Model of Python del d[key]: dict keys are unique, so removing every
entry with the key is the same operation on any list representing a dict. -/
def dictDel {α β : Type} [DecidableEq α] : List (α × β) → α → List (α × β)
  | [], _ => []
  | (k, v) :: rest, key =>
    if k = key then dictDel rest key else (k, v) :: dictDel rest key

/-! ## Message chunker (split_message, src/main.py lines 19-48) -/

/-- Python whitespace characters stripped by str.strip / rstrip / lstrip
(ASCII range, which is all that occurs in this program's separators). -/
def isPyWS (c : Char) : Bool :=
  c = ' ' || c = '\t' || c = '\n' || c = '\r' || c = '\x0b' || c = '\x0c'

/-- Python str.lstrip(). -/
def lstrip (l : List Char) : List Char := l.dropWhile isPyWS

/-- Python str.rstrip(). -/
def rstrip (l : List Char) : List Char := (l.reverse.dropWhile isPyWS).reverse

/-- Python str.strip(). -/
def strip (l : List Char) : List Char := lstrip (rstrip l)

/-- Python text.rfind(sep, 0, endPos): the greatest index i at which sep
occurs with the occurrence lying entirely inside text[0:endPos]; none if
there is no such occurrence. -/
def rfindIn (text sep : List Char) (endPos : Nat) : Option Nat :=
  (List.range endPos).reverse.find?
    (fun i => decide (i + sep.length ≤ endPos) && sep.isPrefixOf (text.drop i))

/-- The cut position chosen by one iteration of the split_message loop:
the separator search over double newline, newline, space (split_at is
idx + len(sep)), falling back to a hard cut at max_len. -/
def findSplitAt (text : List Char) (max_len : Nat) : Nat :=
  match rfindIn text ['\n', '\n'] max_len with
  | some idx => idx + 2
  | none =>
    match rfindIn text ['\n'] max_len with
    | some idx => idx + 1
    | none =>
      match rfindIn text [' '] max_len with
      | some idx => idx + 1
      | none => max_len

/-- The while loop of split_message, fuelled to make it total; the fuel
text.length + 1 chosen by split_message is shown sufficient whenever
max_len is at least 1 (the Python loop diverges for max_len = 0). -/
def splitLoop (max_len : Nat) : Nat → List Char → List (List Char)
  | 0, _ => []
  | fuel + 1, text =>
    if text = [] then []
    else if text.length ≤ max_len then [text]
    else
      rstrip (text.take (findSplitAt text max_len)) ::
        splitLoop max_len fuel (lstrip (text.drop (findSplitAt text max_len)))

/-- split_message (src/main.py lines 19-48). -/
def split_message (text : List Char) (max_len : Nat) : List (List Char) :=
  if text.length ≤ max_len then [text]
  else splitLoop max_len (text.length + 1) text

/-- Telegram message size limit used by the bot. -/
def MAX_MESSAGE_LENGTH : Nat := 4096

/-- Interleaving separators between chunks when rejoining them (the
round-trip reading of the chunker contract). A missing separator is a
hard-cut position at which nothing is re-inserted. -/
def joinWith : List (List Char) → List (List Char) → List Char
  | [], _ => []
  | c :: cs, [] => c ++ joinWith cs []
  | c :: cs, s :: ss => c ++ s ++ joinWith cs ss

/-- The non-whitespace content of a text, in order. -/
def contentOf (l : List Char) : List Char := l.filter (fun c => !isPyWS c)

/-- Content equivalence: equality of the texts after discarding
whitespace; the sense in which rejoined chunks reconstruct the original. -/
def contentEquiv (a b : List Char) : Prop := contentOf a = contentOf b

/-! ## Session state (src/main.py lines 64-69) -/

/-- The two global mutable maps of the bot: sessions (session key to
continuation token) and active_named_session (chat id to active name). -/
structure BotState where
  sessions : List (String × String)
  active_named_session : List (Int × String)
deriving DecidableEq

/-- get_session_key (src/main.py lines 179-184). A stored name equal to
the empty string is falsy in Python and so falls through to the default
key, which the model reproduces. -/
def get_session_key (st : BotState) (chat_id : Int) : String :=
  match dictGet st.active_named_session chat_id with
  | some named =>
    if named = "" then toString chat_id else toString chat_id ++ ":" ++ named
  | none => toString chat_id

/-- Reply sent by handle_reset. -/
inductive ResetReply where
  | cleared
  | noSession
deriving DecidableEq

/-- handle_reset (src/main.py lines 215-234), after the access gate.
Returns the new state, the list of states passed to save_sessions (in
order), and the reply. The inner deletion of the active pointer is
guarded by membership in the source; dictDel of an absent key is the
identity, so the unguarded form is the same function. -/
def handle_reset (st : BotState) (chat_id : Int) :
    BotState × List BotState × ResetReply :=
  let session_key := get_session_key st chat_id
  if dictHas st.sessions session_key then
    let st2 : BotState :=
      { sessions := dictDel st.sessions session_key,
        active_named_session := dictDel st.active_named_session chat_id }
    (st2, [st2], ResetReply.cleared)
  else
    (st, [], ResetReply.noSession)

/-- The substring of a key after its first colon, Python
k.split(":", 1)[1] for a key containing a colon. -/
def afterFirstColon (s : String) : String :=
  String.mk (((s.toList).dropWhile (fun c => c ≠ ':')).drop 1)

/-- Reply sent by handle_switch_session. -/
inductive SwitchReply where
  | listing (names : List String) (current : String)
  | noNamed
  | switchedDefault
  | switchedNamed (name : String)
  | notFound (name : String)
deriving DecidableEq

/-- handle_switch_session (src/main.py lines 281-323), after the access
gate; args are the command arguments. Returns the new state, the states
passed to save_sessions, and the reply. -/
def handle_switch_session (st : BotState) (chat_id : Int) (args : List String) :
    BotState × List BotState × SwitchReply :=
  match args with
  | [] =>
    let chat_sessions :=
      st.sessions.filter (fun kv => (toString chat_id ++ ":").isPrefixOf kv.1)
    if chat_sessions ≠ [] then
      (st, [],
        SwitchReply.listing (chat_sessions.map (fun kv => afterFirstColon kv.1))
          ((dictGet st.active_named_session chat_id).getD "default"))
    else
      (st, [], SwitchReply.noNamed)
  | session_name :: _ =>
    if session_name = "default" then
      if dictHas st.active_named_session chat_id then
        let st2 : BotState :=
          { st with active_named_session := dictDel st.active_named_session chat_id }
        (st2, [st2], SwitchReply.switchedDefault)
      else
        (st, [], SwitchReply.switchedDefault)
    else
      if dictHas st.sessions (toString chat_id ++ ":" ++ session_name) then
        let st2 : BotState :=
          { st with active_named_session :=
              dictSet st.active_named_session chat_id session_name }
        (st2, [st2], SwitchReply.switchedNamed session_name)
      else
        (st, [], SwitchReply.notFound session_name)

/-- The session-key selection at the top of send_to_claude
(src/main.py lines 189-193); a session_name argument that is None or the
empty string is falsy and selects the resolved key of the chat. -/
def send_session_key (st : BotState) (chat_id : Int) (session_name : Option String) : String :=
  match session_name with
  | some n => if n = "" then get_session_key st chat_id else toString chat_id ++ ":" ++ n
  | none => get_session_key st chat_id

/-- send_to_claude (src/main.py lines 187-212). The external call
claude.send is a parameter; an exception it raises is an error value,
which propagates (the function stores nothing in that case because the
assignment follows the await). Returns the new state, the states passed
to save_sessions, and the response text. -/
def send_to_claude
    (backend : String → Option String → Except String (String × Option String))
    (st : BotState) (chat_id : Int) (text : String) (session_name : Option String) :
    Except String (BotState × List BotState × String) :=
  let session_key := send_session_key st chat_id session_name
  let session_id := dictGet st.sessions session_key
  match backend text session_id with
  | Except.error e => Except.error e
  | Except.ok (response, new_session_id) =>
    match new_session_id with
    | some nid =>
      let st2 : BotState := { st with sessions := dictSet st.sessions session_key nid }
      Except.ok (st2, [st2], response)
    | none => Except.ok (st, [], response)

/-- handle_text_message (src/main.py lines 361-393), after the access
gate: text is the gate's cleaned text, user_mention the sender tag.
Returns the new state, the states passed to save_sessions, and the
delivered message texts in order (editing the acknowledgment is modelled
as delivering the new text after it). -/
def handle_text_message
    (backend : String → Option String → Except String (String × Option String))
    (st : BotState) (chat_id : Int) (text : String) (user_mention : String) :
    BotState × List BotState × List String :=
  if text = "" then (st, [], [])
  else
    let session_name := dictGet st.active_named_session chat_id
    let ack := user_mention ++ " 🤔 Thinking..."
    match send_to_claude backend st chat_id text none with
    | Except.ok (st2, saves, response) =>
      let sessionTag :=
        match session_name with
        | some n => if n = "" then "" else "📌 " ++ n ++ "\n\n"
        | none => ""
      let full_response := user_mention ++ " " ++ sessionTag ++ response
      let chunks := (split_message full_response.toList MAX_MESSAGE_LENGTH).map String.mk
      (st2, saves, ack :: chunks)
    | Except.error e => (st, [], [ack, user_mention ++ " Error: " ++ e])

/-! ## Session store (src/main.py lines 72-99) and listing (325-358) -/

/-- The observable conditions of the backing file when load_sessions
runs: absent, raising on read, failing to parse or convert, or parsed
into its two optional top-level maps (data.get supplies the defaults). -/
inductive FileState where
  | missing
  | unreadable
  | malformed
  | parsed (sessions : Option (List (String × String)))
      (active_named_session : Option (List (Int × String)))

/-- load_sessions (src/main.py lines 72-87): a missing file leaves the
initial empty maps, any exception resets both maps to empty, a parsed
file installs its maps with empty defaults for missing keys. -/
def load_sessions : FileState → List (String × String) × List (Int × String)
  | FileState.parsed s a => (s.getD [], a.getD [])
  | _ => ([], [])

/-- The JSON object written by save_sessions (chat ids stringified). -/
structure PersistedData where
  sessions : List (String × String)
  active_named_session : List (String × String)
deriving DecidableEq

/-- save_sessions (src/main.py lines 90-99): writeOk is whether the
write_text call succeeds; an exception is swallowed, so failure only
means nothing reaches disk and the caller continues with memory state. -/
def save_sessions (writeOk : Bool) (st : BotState) : Option PersistedData :=
  if writeOk then
    some ⟨st.sessions, st.active_named_session.map (fun kv => (toString kv.1, kv.2))⟩
  else none

/-- handle_sessions (src/main.py lines 325-358), the listSessions read:
the default token, the named name-token pairs, and the current name. -/
def handle_sessions (st : BotState) (chat_id : Int) :
    Option String × List (String × String) × String :=
  let default_session := dictGet st.sessions (toString chat_id)
  let named_sessions :=
    (st.sessions.filter
        (fun kv => (toString chat_id ++ ":").isPrefixOf kv.1 && kv.1.contains ':')).map
      (fun kv => (afterFirstColon kv.1, kv.2))
  let current := (dictGet st.active_named_session chat_id).getD "default"
  (default_session, named_sessions, current)

/-! ## Access gate (src/main.py lines 111-166 and 396-417) -/

/-- A message entity as used by get_bot_mention. -/
structure MsgEntity where
  type : String
  offset : Nat
  length : Nat
deriving DecidableEq

/-- The sender of a message. -/
structure TgUser where
  id : Int
  username : Option String
deriving DecidableEq

/-- The parts of an inbound message the gate inspects. -/
structure TgMessage where
  chat_id : Int
  from_user : Option TgUser
  text : Option String
  entities : List MsgEntity
deriving DecidableEq

/-- Python slice s[start:stop] for a string. -/
def pySlice (s : String) (start stop : Nat) : String :=
  String.mk ((s.toList.drop start).take (stop - start))

/-- Python str.lower() (ASCII usernames). -/
def lowerStr (s : String) : String := String.mk (s.toList.map Char.toLower)

/-- Python str.strip() on a String. -/
def stripStr (s : String) : String := String.mk (strip s.toList)

/-- The entity loop of get_bot_mention: first mention entity whose text
matches the bot mention case-insensitively wins, removing it and
stripping the remainder. -/
def findBotMention (text : String) (bot_mention : String) :
    List MsgEntity → Bool × String
  | [] => (false, text)
  | e :: rest =>
    if e.type = "mention" ∧
        lowerStr (pySlice text e.offset (e.offset + e.length)) = lowerStr bot_mention then
      (true,
        stripStr (pySlice text 0 e.offset ++
          String.mk (text.toList.drop (e.offset + e.length))))
    else
      findBotMention text bot_mention rest

/-- get_bot_mention (src/main.py lines 111-129). A message with falsy
entities or falsy text returns (False, text or ""). -/
def get_bot_mention (message : TgMessage) (bot_username : String) : Bool × String :=
  match message.text with
  | none => (false, "")
  | some text =>
    if message.entities = [] ∨ text = "" then (false, text)
    else findBotMention text ("@" ++ bot_username) message.entities

/-- Outcome of the live context.bot.get_chat_member lookup: an exception
or the member status string. -/
inductive MemberLookup where
  | err
  | ok (status : String)
deriving DecidableEq

/-- check_allowed (src/main.py lines 132-166): allow-listed chat, live
admin lookup, then required bot mention (stripped from the text). -/
def check_allowed (allowed_chat_ids : List Int)
    (member_status : Int → Int → MemberLookup) (bot_username : String)
    (message : Option TgMessage) : Bool × String :=
  match message with
  | none => (false, "")
  | some m =>
    match m.from_user with
    | none => (false, "")
    | some u =>
      if m.chat_id ∉ allowed_chat_ids then (false, "")
      else
        match member_status m.chat_id u.id with
        | MemberLookup.err => (false, "")
        | MemberLookup.ok status =>
          if status ≠ "administrator" ∧ status ≠ "creator" then (false, "")
          else
            let r := get_bot_mention m bot_username
            if r.1 = false then (false, "") else (true, r.2)

/-- check_admin_allowed (src/main.py lines 396-417): same gate without
the mention requirement, used for voice messages. -/
def check_admin_allowed (allowed_chat_ids : List Int)
    (member_status : Int → Int → MemberLookup)
    (message : Option TgMessage) : Bool :=
  match message with
  | none => false
  | some m =>
    match m.from_user with
    | none => false
    | some u =>
      if m.chat_id ∉ allowed_chat_ids then false
      else
        match member_status m.chat_id u.id with
        | MemberLookup.err => false
        | MemberLookup.ok status =>
          if status ≠ "administrator" ∧ status ≠ "creator" then false
          else true

/-! ## Dictionary lemmas -/

theorem dictGet_dictSet_self {α β : Type} [DecidableEq α]
    (m : List (α × β)) (k : α) (v : β) : dictGet (dictSet m k v) k = some v := by
  induction m with
  | nil => simp [dictSet, dictGet]
  | cons kv rest ih =>
    by_cases h : kv.1 = k
    · simp [dictSet, h, dictGet]
    · simp [dictSet, dictGet, h, ih]

theorem dictGet_dictDel_self {α β : Type} [DecidableEq α]
    (m : List (α × β)) (k : α) : dictGet (dictDel m k) k = none := by
  induction m with
  | nil => simp [dictDel, dictGet]
  | cons kv rest ih =>
    by_cases h : kv.1 = k
    · simp [dictDel, h, ih]
    · simp [dictDel, dictGet, h, ih]

theorem dictGet_eq_none_of_not_has {α β : Type} [DecidableEq α]
    (m : List (α × β)) (k : α) (h : dictHas m k = false) : dictGet m k = none := by
  unfold dictHas at h
  cases hg : dictGet m k with
  | none => rfl
  | some v => rw [hg] at h; simp at h

/-! ## Chunker lemmas -/

theorem rfindIn_le (text sep : List Char) (endPos i : Nat)
    (h : rfindIn text sep endPos = some i) : i + sep.length ≤ endPos := by
  unfold rfindIn at h
  have hp := List.find?_some h
  simp only [Bool.and_eq_true, decide_eq_true_eq] at hp
  exact hp.1

theorem findSplitAt_pos (text : List Char) (ml : Nat) (h : 1 ≤ ml) :
    1 ≤ findSplitAt text ml := by
  unfold findSplitAt
  split
  · omega
  · split
    · omega
    · split
      · omega
      · exact h

theorem findSplitAt_le (text : List Char) (ml : Nat) : findSplitAt text ml ≤ ml := by
  unfold findSplitAt
  split
  · rename_i idx h
    have h2 := rfindIn_le _ _ _ _ h
    simp at h2
    omega
  · split
    · rename_i idx h
      have h2 := rfindIn_le _ _ _ _ h
      simp at h2
      omega
    · split
      · rename_i idx h
        have h2 := rfindIn_le _ _ _ _ h
        simp at h2
        omega
      · exact Nat.le_refl ml

theorem dropWhile_length_le (p : Char → Bool) (l : List Char) :
    (l.dropWhile p).length ≤ l.length := by
  induction l with
  | nil => simp
  | cons a l ih =>
    by_cases h : p a = true
    · rw [List.dropWhile_cons, if_pos h]
      exact Nat.le_trans ih (Nat.le_succ _)
    · rw [List.dropWhile_cons, if_neg h]

theorem lstrip_length_le (l : List Char) : (lstrip l).length ≤ l.length :=
  dropWhile_length_le isPyWS l

theorem rstrip_length_le (l : List Char) : (rstrip l).length ≤ l.length := by
  unfold rstrip
  rw [List.length_reverse]
  calc (l.reverse.dropWhile isPyWS).length ≤ l.reverse.length :=
        dropWhile_length_le isPyWS l.reverse
    _ = l.length := List.length_reverse l

theorem filter_not_dropWhile (p : Char → Bool) (l : List Char) :
    (l.dropWhile p).filter (fun c => !p c) = l.filter (fun c => !p c) := by
  induction l with
  | nil => rfl
  | cons a l ih =>
    by_cases h : p a = true
    · rw [List.dropWhile_cons, if_pos h, ih, List.filter_cons]
      simp [h]
    · rw [List.dropWhile_cons, if_neg h]

theorem contentOf_append (a b : List Char) :
    contentOf (a ++ b) = contentOf a ++ contentOf b := by
  unfold contentOf
  exact List.filter_append _ _

theorem contentOf_lstrip (l : List Char) : contentOf (lstrip l) = contentOf l :=
  filter_not_dropWhile isPyWS l

theorem contentOf_reverse (l : List Char) : contentOf l.reverse = (contentOf l).reverse := by
  unfold contentOf
  exact List.filter_reverse _ _

theorem contentOf_dropWhile (l : List Char) :
    contentOf (l.dropWhile isPyWS) = contentOf l :=
  filter_not_dropWhile isPyWS l

theorem contentOf_rstrip (l : List Char) : contentOf (rstrip l) = contentOf l := by
  unfold rstrip
  rw [contentOf_reverse, contentOf_dropWhile, contentOf_reverse, List.reverse_reverse]

theorem contentOf_strip (l : List Char) : contentOf (strip l) = contentOf l := by
  unfold strip
  rw [contentOf_lstrip, contentOf_rstrip]

theorem split_remainder_lt (text : List Char) (ml : Nat) (hml : 1 ≤ ml)
    (hlong : ml < text.length) :
    (lstrip (text.drop (findSplitAt text ml))).length < text.length := by
  have h1 := findSplitAt_pos text ml hml
  have h2 := lstrip_length_le (text.drop (findSplitAt text ml))
  have h3 : (text.drop (findSplitAt text ml)).length = text.length - findSplitAt text ml :=
    List.length_drop _ _
  omega

theorem splitLoop_chunk_le (ml : Nat) :
    ∀ fuel text c, c ∈ splitLoop ml fuel text → c.length ≤ ml := by
  intro fuel
  induction fuel with
  | zero => intro text c h; simp [splitLoop] at h
  | succ fuel ih =>
    intro text c h
    rw [splitLoop] at h
    by_cases h0 : text = []
    · rw [if_pos h0] at h; simp at h
    · rw [if_neg h0] at h
      by_cases h1 : text.length ≤ ml
      · rw [if_pos h1] at h
        simp at h
        subst h
        exact h1
      · rw [if_neg h1] at h
        rcases List.mem_cons.mp h with hc | hr
        · subst hc
          calc (rstrip (text.take (findSplitAt text ml))).length
              ≤ (text.take (findSplitAt text ml)).length := rstrip_length_le _
            _ ≤ findSplitAt text ml := by rw [List.length_take]; exact Nat.min_le_left _ _
            _ ≤ ml := findSplitAt_le text ml
        · exact ih _ _ hr

theorem splitLoop_join_content (ml : Nat) (hml : 1 ≤ ml) :
    ∀ fuel text, text.length < fuel →
      contentOf (splitLoop ml fuel text).flatten = contentOf text := by
  intro fuel
  induction fuel with
  | zero => intro text h; omega
  | succ fuel ih =>
    intro text h
    rw [splitLoop]
    by_cases h0 : text = []
    · rw [if_pos h0, h0]; rfl
    · rw [if_neg h0]
      by_cases h1 : text.length ≤ ml
      · rw [if_pos h1]
        simp
      · rw [if_neg h1]
        rw [List.flatten_cons, contentOf_append]
        have hlong : ml < text.length := Nat.lt_of_not_le h1
        have hrem := split_remainder_lt text ml hml hlong
        have hfuel : (lstrip (text.drop (findSplitAt text ml))).length < fuel := by omega
        rw [ih _ hfuel, contentOf_rstrip, contentOf_lstrip]
        rw [← contentOf_append, List.take_append_drop]

theorem splitLoop_fuel_congr (ml : Nat) (hml : 1 ≤ ml) :
    ∀ f1 f2 text, text.length < f1 → text.length < f2 →
      splitLoop ml f1 text = splitLoop ml f2 text := by
  intro f1
  induction f1 with
  | zero => intro f2 text h1 h2; omega
  | succ f ih =>
    intro f2 text h1 h2
    cases f2 with
    | zero => omega
    | succ g =>
      rw [splitLoop, splitLoop]
      by_cases h0 : text = []
      · rw [if_pos h0, if_pos h0]
      · rw [if_neg h0, if_neg h0]
        by_cases hfit : text.length ≤ ml
        · rw [if_pos hfit, if_pos hfit]
        · rw [if_neg hfit, if_neg hfit]
          have hlong : ml < text.length := Nat.lt_of_not_le hfit
          have hrem := split_remainder_lt text ml hml hlong
          have hg : (lstrip (text.drop (findSplitAt text ml))).length < g := by omega
          have hf : (lstrip (text.drop (findSplitAt text ml))).length < f := by omega
          rw [ih g _ hf hg]

theorem contentOf_joinWith (chunks : List (List Char)) :
    ∀ seps, (∀ s ∈ seps, ∀ c ∈ s, isPyWS c = true) →
      contentOf (joinWith chunks seps) = contentOf chunks.flatten := by
  induction chunks with
  | nil => intro seps hseps; cases seps <;> rfl
  | cons c cs ih =>
    intro seps hseps
    cases seps with
    | nil =>
      rw [joinWith, List.flatten_cons]
      simp only [contentOf_append]
      rw [ih [] (by intro s hs; simp at hs)]
    | cons s ss =>
      rw [joinWith, List.flatten_cons]
      simp only [List.append_assoc, contentOf_append]
      have hs0 : contentOf s = [] := by
        unfold contentOf
        rw [List.filter_eq_nil_iff]
        intro a ha
        simp [hseps s (List.mem_cons_self s ss) a ha]
      rw [hs0, List.nil_append]
      rw [ih ss (fun t ht => hseps t (List.mem_cons_of_mem s ht))]

/-! ## Claim theorems: chunker -/

/-- C3: for every text and maxLen at least 1, every chunk returned by
split_message has length at most maxLen, and when the text already fits
the result is exactly the one-element list holding the input unchanged. -/
theorem C3_chunk_bound_and_identity (text : List Char) (max_len : Nat)
    (hml : 1 ≤ max_len) :
    (∀ c ∈ split_message text max_len, c.length ≤ max_len) ∧
    (text.length ≤ max_len → split_message text max_len = [text]) := by
  constructor
  · intro c hc
    unfold split_message at hc
    by_cases h : text.length ≤ max_len
    · rw [if_pos h] at hc
      simp at hc
      subst hc
      exact h
    · rw [if_neg h] at hc
      exact splitLoop_chunk_le max_len _ text c hc
  · intro h
    unfold split_message
    rw [if_pos h]

/-- Witness for C3 at a concrete input. -/
theorem C3_chunk_bound_and_identity_witness :
    (∀ c ∈ split_message ['a', 'b', 'c'] 2, c.length ≤ 2) ∧
    (List.length ['a', 'b', 'c'] ≤ 2 → split_message ['a', 'b', 'c'] 2 = [['a', 'b', 'c']]) :=
  C3_chunk_bound_and_identity ['a', 'b', 'c'] 2 (by decide)

/-- C2: for every text, every maxLen at least 1 and any whitespace
separators re-inserted between the chunks (one at each soft cut, none at
hard cuts, both being instances), the rejoined chunks of split_message
are content-equivalent to the trimmed original text. -/
theorem C2_chunker_roundtrip (text : List Char) (max_len : Nat)
    (seps : List (List Char)) (hml : 1 ≤ max_len)
    (hseps : ∀ s ∈ seps, ∀ c ∈ s, isPyWS c = true) :
    contentEquiv (joinWith (split_message text max_len) seps) (strip text) := by
  unfold contentEquiv
  rw [contentOf_joinWith _ seps hseps, contentOf_strip]
  unfold split_message
  by_cases h : text.length ≤ max_len
  · rw [if_pos h]
    simp
  · rw [if_neg h]
    exact splitLoop_join_content max_len hml (text.length + 1) text (Nat.lt_succ_self _)

/-- Witness for C2 at a concrete input with a soft cut. -/
theorem C2_chunker_roundtrip_witness :
    contentEquiv (joinWith (split_message ['h', 'i', ' ', 'y', 'o'] 3) [[' ']])
      (strip ['h', 'i', ' ', 'y', 'o']) :=
  C2_chunker_roundtrip ['h', 'i', ' ', 'y', 'o'] 3 [[' ']] (by decide) (by decide)

/-- C9: for maxLen at least 1 the loop of split_message terminates: the
chosen cut position is at least 1, the remaining text strictly shrinks
while it does not yet fit, and consequently the fuel used by
split_message is insensitive to any increase. -/
theorem C9_split_terminates (text : List Char) (max_len : Nat) (hml : 1 ≤ max_len) :
    1 ≤ findSplitAt text max_len ∧
    (max_len < text.length →
      (lstrip (text.drop (findSplitAt text max_len))).length < text.length) ∧
    (∀ extra, splitLoop max_len (text.length + 1 + extra) text =
      splitLoop max_len (text.length + 1) text) := by
  refine ⟨findSplitAt_pos text max_len hml, ?_, ?_⟩
  · intro hlong
    exact split_remainder_lt text max_len hml hlong
  · intro extra
    exact splitLoop_fuel_congr max_len hml _ _ text (by omega) (Nat.lt_succ_self _)

/-- Witness for C9 at a concrete input. -/
theorem C9_split_terminates_witness :
    (lstrip (List.drop (findSplitAt ['a', 'b'] 1) ['a', 'b'])).length <
      List.length ['a', 'b'] :=
  (C9_split_terminates ['a', 'b'] 1 (by decide)).2.1 (by decide)

/-- C10: split_message can return an empty chunk: on the input " x" with
maxLen 1 the window ends right after the leading space, the cut is taken
at the space, and the right-strip of the prefix yields the empty chunk,
so the result is exactly ["", "x"]. -/
theorem C10_empty_chunk :
    split_message [' ', 'x'] 1 = [[], ['x']] ∧ [] ∈ split_message [' ', 'x'] 1 := by
  constructor
  · decide
  · decide

/-! ## Claim theorems: session router -/

/-- C1 counterexample: with a default record "1"->"tok", a named record
"1:foo"->"tok2" and the pointer of chat 1 set to "foo", reset deletes the
named record and clears the pointer, after which getToken(resolveKey(1))
is the still-present default token, not absent; and with the pointer set
but no record at all, reset leaves the pointer, so resolveKey(1) stays
"1:foo" instead of the default key. -/
theorem C1_reset_counterexample :
    dictGet
        (handle_reset ⟨[("1", "tok"), ("1:foo", "tok2")], [((1 : Int), "foo")]⟩ 1).1.sessions
        (get_session_key
          (handle_reset ⟨[("1", "tok"), ("1:foo", "tok2")], [((1 : Int), "foo")]⟩ 1).1 1) =
      some "tok" ∧
    get_session_key (handle_reset ⟨[], [((1 : Int), "foo")]⟩ 1).1 1 = "1:foo" := by
  constructor
  · rfl
  · rfl

/-- C1 amended: reset(C) always leaves getToken absent at the key K that
was resolved before the call; if a record existed for K it is deleted,
the pointer for C is cleared, the new state is persisted, and resolveKey
then returns the default key (a default record, if any, remains and is
then the one getToken finds); if no record existed for K the call is a
no-op that changes nothing, in particular a dangling pointer is kept. -/
theorem C1_reset_amended (st : BotState) (chat_id : Int) :
    dictGet (handle_reset st chat_id).1.sessions (get_session_key st chat_id) = none ∧
    (dictHas st.sessions (get_session_key st chat_id) = true →
      get_session_key (handle_reset st chat_id).1 chat_id = toString chat_id ∧
      dictGet (handle_reset st chat_id).1.active_named_session chat_id = none ∧
      (handle_reset st chat_id).2.1 = [(handle_reset st chat_id).1] ∧
      (handle_reset st chat_id).2.2 = ResetReply.cleared) ∧
    (dictHas st.sessions (get_session_key st chat_id) = false →
      handle_reset st chat_id = (st, [], ResetReply.noSession)) := by
  refine ⟨?_, ?_, ?_⟩
  · cases h : dictHas st.sessions (get_session_key st chat_id) with
    | true =>
      have hr : (handle_reset st chat_id).1 =
          ⟨dictDel st.sessions (get_session_key st chat_id),
            dictDel st.active_named_session chat_id⟩ := by
        simp [handle_reset, h]
      rw [hr]
      exact dictGet_dictDel_self _ _
    | false =>
      have hr : (handle_reset st chat_id).1 = st := by
        simp [handle_reset, h]
      rw [hr]
      exact dictGet_eq_none_of_not_has _ _ h
  · intro h
    have hr : handle_reset st chat_id =
        (⟨dictDel st.sessions (get_session_key st chat_id),
            dictDel st.active_named_session chat_id⟩,
          [⟨dictDel st.sessions (get_session_key st chat_id),
            dictDel st.active_named_session chat_id⟩], ResetReply.cleared) := by
      simp [handle_reset, h]
    rw [hr]
    refine ⟨?_, dictGet_dictDel_self _ _, rfl, rfl⟩
    unfold get_session_key
    rw [dictGet_dictDel_self]
  · intro h
    simp [handle_reset, h]

/-- Witness for C1 amended at a concrete input. -/
theorem C1_reset_amended_witness :
    handle_reset ⟨[], [((2 : Int), "bar")]⟩ 2 =
      (⟨[], [((2 : Int), "bar")]⟩, [], ResetReply.noSession) :=
  (C1_reset_amended ⟨[], [((2 : Int), "bar")]⟩ 2).2.2 rfl

/-- C4: for a session name other than "default" (session names are
nonempty command tokens), switch succeeds exactly when a record exists
for the named key: without one it fails with not-found and changes no
state; with one it sets only the pointer, after which resolveKey returns
the named key; and switch to "default" clears the pointer, after which
resolveKey returns the unnamed key. -/
theorem C4_switch_session (st : BotState) (chat_id : Int) (name : String)
    (hdef : name ≠ "default") (hne : name ≠ "") :
    (dictHas st.sessions (toString chat_id ++ ":" ++ name) = false →
      handle_switch_session st chat_id [name] = (st, [], SwitchReply.notFound name)) ∧
    (dictHas st.sessions (toString chat_id ++ ":" ++ name) = true →
      (handle_switch_session st chat_id [name]).1.sessions = st.sessions ∧
      (handle_switch_session st chat_id [name]).2.2 = SwitchReply.switchedNamed name ∧
      get_session_key (handle_switch_session st chat_id [name]).1 chat_id =
        toString chat_id ++ ":" ++ name) ∧
    (get_session_key (handle_switch_session st chat_id ["default"]).1 chat_id =
        toString chat_id ∧
      dictGet (handle_switch_session st chat_id ["default"]).1.active_named_session
        chat_id = none) := by
  refine ⟨?_, ?_, ?_⟩
  · intro h
    simp [handle_switch_session, hdef, h]
  · intro h
    have hr : (handle_switch_session st chat_id [name]).1 =
        ⟨st.sessions, dictSet st.active_named_session chat_id name⟩ := by
      simp [handle_switch_session, hdef, h]
    have hreply : (handle_switch_session st chat_id [name]).2.2 =
        SwitchReply.switchedNamed name := by
      simp [handle_switch_session, hdef, h]
    refine ⟨by rw [hr], hreply, ?_⟩
    rw [hr]
    unfold get_session_key
    rw [dictGet_dictSet_self]
    simp [hne]
  · cases hp : dictHas st.active_named_session chat_id with
    | true =>
      have hr : (handle_switch_session st chat_id ["default"]).1 =
          ⟨st.sessions, dictDel st.active_named_session chat_id⟩ := by
        simp [handle_switch_session, hp]
      rw [hr]
      constructor
      · unfold get_session_key
        rw [dictGet_dictDel_self]
      · exact dictGet_dictDel_self _ _
    | false =>
      have hr : (handle_switch_session st chat_id ["default"]).1 = st := by
        simp [handle_switch_session, hp]
      rw [hr]
      have hn := dictGet_eq_none_of_not_has _ _ hp
      constructor
      · unfold get_session_key
        rw [hn]
      · exact hn

/-- Witness for C4 at a concrete input. -/
theorem C4_switch_session_witness :
    handle_switch_session ⟨[], []⟩ 3 ["dbg"] = (⟨[], []⟩, [], SwitchReply.notFound "dbg") :=
  (C4_switch_session ⟨[], []⟩ 3 "dbg" (by decide) (by decide)).1 rfl

/-- C6: when the backend returns no new token, send_to_claude leaves the
whole state (including the stored token for the key) unchanged and saves
nothing; when it returns a token, the record for the key is upserted and
the updated state is saved immediately. -/
theorem C6_record_exchange
    (backend : String → Option String → Except String (String × Option String))
    (st : BotState) (chat_id : Int) (text : String) (session_name : Option String)
    (response : String) :
    (backend text (dictGet st.sessions (send_session_key st chat_id session_name)) =
        Except.ok (response, none) →
      send_to_claude backend st chat_id text session_name = Except.ok (st, [], response)) ∧
    (∀ nid,
      backend text (dictGet st.sessions (send_session_key st chat_id session_name)) =
          Except.ok (response, some nid) →
      ∃ st2 : BotState,
        send_to_claude backend st chat_id text session_name =
          Except.ok (st2, [st2], response) ∧
        st2.sessions = dictSet st.sessions (send_session_key st chat_id session_name) nid ∧
        st2.active_named_session = st.active_named_session ∧
        dictGet st2.sessions (send_session_key st chat_id session_name) = some nid) := by
  constructor
  · intro h
    simp only [send_to_claude]
    rw [h]
  · intro nid h
    refine ⟨⟨dictSet st.sessions (send_session_key st chat_id session_name) nid,
        st.active_named_session⟩, ?_, rfl, rfl, dictGet_dictSet_self _ _ _⟩
    simp only [send_to_claude]
    rw [h]

/-- Witness for C6 at a concrete input. -/
theorem C6_record_exchange_witness :
    send_to_claude (fun _ _ => Except.ok ("resp", none)) ⟨[], []⟩ 7 "hi" none =
      Except.ok (⟨[], []⟩, [], "resp") :=
  (C6_record_exchange (fun _ _ => Except.ok ("resp", none)) ⟨[], []⟩ 7 "hi" none "resp").1 rfl

/-- C7: when the backend call raises, handle_text_message leaves all
session state exactly as before (no token write, no pointer change, no
save) and delivers a single error notice after the acknowledgment
instead of chunked output, with no retry. -/
theorem C7_backend_failure
    (backend : String → Option String → Except String (String × Option String))
    (st : BotState) (chat_id : Int) (text user_mention e : String)
    (htext : text ≠ "")
    (hb : backend text (dictGet st.sessions (send_session_key st chat_id none)) =
      Except.error e) :
    handle_text_message backend st chat_id text user_mention =
      (st, [], [user_mention ++ " 🤔 Thinking...", user_mention ++ " Error: " ++ e]) := by
  unfold handle_text_message
  rw [if_neg htext]
  simp only [send_to_claude]
  rw [hb]

/-- Witness for C7 at a concrete input. -/
theorem C7_backend_failure_witness :
    handle_text_message (fun _ _ => Except.error "boom") ⟨[], []⟩ 7 "hi" "@u" =
      (⟨[], []⟩, [], ["@u" ++ " 🤔 Thinking...", "@u" ++ " Error: " ++ "boom"]) :=
  C7_backend_failure (fun _ _ => Except.error "boom") ⟨[], []⟩ 7 "hi" "@u" "boom"
    (by decide) rfl

/-- C8: persistence failures are not fatal: load of a missing,
unreadable or malformed file yields empty maps, and after an exchange
that stores a token the in-memory state is authoritative even when the
save write fails, so handle_sessions still reports the new token. -/
theorem C8_persistence_nonfatal
    (backend : String → Option String → Except String (String × Option String))
    (st : BotState) (chat_id : Int) (text response nid : String)
    (hptr : dictGet st.active_named_session chat_id = none)
    (hb : backend text (dictGet st.sessions (toString chat_id)) =
      Except.ok (response, some nid)) :
    load_sessions FileState.missing = ([], []) ∧
    load_sessions FileState.unreadable = ([], []) ∧
    load_sessions FileState.malformed = ([], []) ∧
    send_to_claude backend st chat_id text none =
      Except.ok ({ st with sessions := dictSet st.sessions (toString chat_id) nid },
        [{ st with sessions := dictSet st.sessions (toString chat_id) nid }], response) ∧
    save_sessions false
        { st with sessions := dictSet st.sessions (toString chat_id) nid } = none ∧
    (handle_sessions { st with sessions := dictSet st.sessions (toString chat_id) nid }
        chat_id).1 = some nid := by
  have hkey : send_session_key st chat_id none = toString chat_id := by
    unfold send_session_key get_session_key
    rw [hptr]
  refine ⟨rfl, rfl, rfl, ?_, rfl, ?_⟩
  · simp only [send_to_claude, hkey]
    rw [hb]
  · simp only [handle_sessions]
    exact dictGet_dictSet_self _ _ _

/-- Witness for C8 at a concrete input. -/
theorem C8_persistence_nonfatal_witness :
    (handle_sessions ⟨dictSet [] (toString (9 : Int)) "tok9", []⟩ 9).1 = some "tok9" :=
  (C8_persistence_nonfatal (fun _ _ => Except.ok ("r", some "tok9")) ⟨[], []⟩ 9 "hi" "r"
    "tok9" rfl rfl).2.2.2.2.2

/-! ## Claim theorems: access gate -/

/-- Evaluation of check_allowed on a message with a known sender. -/
theorem check_allowed_eq (a : List Int) (ms : Int → Int → MemberLookup)
    (bu : String) (m : TgMessage) (u : TgUser) (hu : m.from_user = some u) :
    check_allowed a ms bu (some m) =
      (if m.chat_id ∉ a then (false, "")
      else
        match ms m.chat_id u.id with
        | MemberLookup.err => (false, "")
        | MemberLookup.ok status =>
          if status ≠ "administrator" ∧ status ≠ "creator" then (false, "")
          else
            if (get_bot_mention m bu).1 = false then (false, "")
            else (true, (get_bot_mention m bu).2)) := by
  have h1 : check_allowed a ms bu (some m) =
      (match m.from_user with
      | none => (false, "")
      | some u =>
        if m.chat_id ∉ a then (false, "")
        else
          match ms m.chat_id u.id with
          | MemberLookup.err => (false, "")
          | MemberLookup.ok status =>
            if status ≠ "administrator" ∧ status ≠ "creator" then (false, "")
            else
              if (get_bot_mention m bu).1 = false then (false, "")
              else (true, (get_bot_mention m bu).2)) := rfl
  rw [h1, hu]

/-- Evaluation of check_admin_allowed on a message with a known sender. -/
theorem check_admin_allowed_eq (a : List Int) (ms : Int → Int → MemberLookup)
    (m : TgMessage) (u : TgUser) (hu : m.from_user = some u) :
    check_admin_allowed a ms (some m) =
      (if m.chat_id ∉ a then false
      else
        match ms m.chat_id u.id with
        | MemberLookup.err => false
        | MemberLookup.ok status =>
          if status ≠ "administrator" ∧ status ≠ "creator" then false
          else true) := by
  have h1 : check_admin_allowed a ms (some m) =
      (match m.from_user with
      | none => false
      | some u =>
        if m.chat_id ∉ a then false
        else
          match ms m.chat_id u.id with
          | MemberLookup.err => false
          | MemberLookup.ok status =>
            if status ≠ "administrator" ∧ status ≠ "creator" then false
            else true) := rfl
  rw [h1, hu]

/-- C5: a text message is authorized only when the chat is allow-listed,
the live member lookup reports administrator or creator, and the bot is
mentioned (the mention being stripped from the text handed on); a
non-admin in an allowed chat is rejected whatever the mention, an
admin's text without the mention is rejected, a lookup failure rejects,
and an admin's voice message passes check_admin_allowed with no mention
at all. -/
theorem C5_access_gate (allowed_chat_ids : List Int)
    (member_status : Int → Int → MemberLookup) (bot_username : String)
    (m : TgMessage) (u : TgUser) (hu : m.from_user = some u) :
    (∀ t, check_allowed allowed_chat_ids member_status bot_username (some m) = (true, t) →
      m.chat_id ∈ allowed_chat_ids ∧
      (∃ s, member_status m.chat_id u.id = MemberLookup.ok s ∧
        (s = "administrator" ∨ s = "creator")) ∧
      (get_bot_mention m bot_username).1 = true ∧
      t = (get_bot_mention m bot_username).2) ∧
    (∀ s, member_status m.chat_id u.id = MemberLookup.ok s →
      s ≠ "administrator" → s ≠ "creator" →
      check_allowed allowed_chat_ids member_status bot_username (some m) = (false, "") ∧
      check_admin_allowed allowed_chat_ids member_status (some m) = false) ∧
    (member_status m.chat_id u.id = MemberLookup.err →
      check_allowed allowed_chat_ids member_status bot_username (some m) = (false, "") ∧
      check_admin_allowed allowed_chat_ids member_status (some m) = false) ∧
    ((get_bot_mention m bot_username).1 = false →
      check_allowed allowed_chat_ids member_status bot_username (some m) = (false, "")) ∧
    (m.chat_id ∈ allowed_chat_ids →
      (∃ s, member_status m.chat_id u.id = MemberLookup.ok s ∧
        (s = "administrator" ∨ s = "creator")) →
      check_admin_allowed allowed_chat_ids member_status (some m) = true) := by
  have hca := check_allowed_eq allowed_chat_ids member_status bot_username m u hu
  have hcad := check_admin_allowed_eq allowed_chat_ids member_status m u hu
  refine ⟨?_, ?_, ?_, ?_, ?_⟩
  · intro t h
    rw [hca] at h
    by_cases hc : m.chat_id ∈ allowed_chat_ids
    · rw [if_neg (not_not_intro hc)] at h
      cases hm : member_status m.chat_id u.id with
      | err =>
        simp only [hm] at h
        simp at h
      | ok s =>
        simp only [hm] at h
        by_cases hs : s ≠ "administrator" ∧ s ≠ "creator"
        · rw [if_pos hs] at h
          simp at h
        · rw [if_neg hs] at h
          by_cases hb : (get_bot_mention m bot_username).1 = false
          · rw [if_pos hb] at h
            simp at h
          · rw [if_neg hb] at h
            simp only [Prod.mk.injEq] at h
            have hrole : s = "administrator" ∨ s = "creator" := by tauto
            refine ⟨hc, ⟨s, rfl, hrole⟩, ?_, h.2.symm⟩
            cases hbv : (get_bot_mention m bot_username).1 with
            | true => rfl
            | false => exact absurd hbv hb
    · rw [if_pos hc] at h
      simp at h
  · intro s hm ha hcr
    constructor
    · rw [hca]
      by_cases hc : m.chat_id ∈ allowed_chat_ids
      · rw [if_neg (not_not_intro hc)]
        simp only [hm]
        rw [if_pos ⟨ha, hcr⟩]
      · rw [if_pos hc]
    · rw [hcad]
      by_cases hc : m.chat_id ∈ allowed_chat_ids
      · rw [if_neg (not_not_intro hc)]
        simp only [hm]
        rw [if_pos ⟨ha, hcr⟩]
      · rw [if_pos hc]
  · intro hm
    constructor
    · rw [hca]
      by_cases hc : m.chat_id ∈ allowed_chat_ids
      · rw [if_neg (not_not_intro hc)]
        simp only [hm]
      · rw [if_pos hc]
    · rw [hcad]
      by_cases hc : m.chat_id ∈ allowed_chat_ids
      · rw [if_neg (not_not_intro hc)]
        simp only [hm]
      · rw [if_pos hc]
  · intro hb
    rw [hca]
    by_cases hc : m.chat_id ∈ allowed_chat_ids
    · rw [if_neg (not_not_intro hc)]
      cases hm : member_status m.chat_id u.id with
      | err => simp only [hm]
      | ok s =>
        simp only [hm]
        by_cases hs : s ≠ "administrator" ∧ s ≠ "creator"
        · rw [if_pos hs]
        · rw [if_neg hs, if_pos hb]
    · rw [if_pos hc]
  · intro hc hs
    obtain ⟨s, hm, hrole⟩ := hs
    rw [hcad, if_neg (not_not_intro hc)]
    simp only [hm]
    have hns : ¬(s ≠ "administrator" ∧ s ≠ "creator") := by
      cases hrole with
      | inl h1 => intro hand; exact hand.1 h1
      | inr h1 => intro hand; exact hand.2 h1
    rw [if_neg hns]

/-- Witness for C5: one admin voice authorization and one non-admin
rejection at concrete values. -/
theorem C5_access_gate_witness :
    check_admin_allowed [7] (fun _ _ => MemberLookup.ok "creator")
        (some ⟨7, some ⟨9, none⟩, none, []⟩) = true ∧
    check_allowed [7] (fun _ _ => MemberLookup.ok "member") "mybot"
        (some ⟨7, some ⟨9, none⟩, some "@mybot hi", [⟨"mention", 0, 6⟩]⟩) = (false, "") :=
  ⟨(C5_access_gate [7] (fun _ _ => MemberLookup.ok "creator") "b"
      ⟨7, some ⟨9, none⟩, none, []⟩ ⟨9, none⟩ rfl).2.2.2.2 (by decide)
      ⟨"creator", rfl, Or.inr rfl⟩,
    ((C5_access_gate [7] (fun _ _ => MemberLookup.ok "member") "mybot"
      ⟨7, some ⟨9, none⟩, some "@mybot hi", [⟨"mention", 0, 6⟩]⟩ ⟨9, none⟩ rfl).2.1
      "member" rfl (by decide) (by decide)).1⟩
